import Mathlib

/-
Verification of the batch media-conversion core of the Converter repository
(src/src/lib/ffmpeg.ts, second revision in the file, together with
src/src/lib/constants.ts) against its natural-language specification.

The TypeScript code is shallowly embedded: the FFmpeg engine session is an
external collaborator modelled by an oracle (its command execution effect on
the virtual filesystem, the canvas encoder, the reported JS heap ceiling),
file bytes are opaque Nat values, and every async function becomes a pure
function threading the virtual filesystem and an event trace.  Machine
numbers are Nat (JS sizes are nonnegative integers well below 2^53, so no
overflow wrapping is involved); the one floating-point expression,
Math.floor(availableMemory * 0.8), is embedded as availableMemory * 4 / 5 in
Nat arithmetic, which agrees with the double computation on all values
relevant here.
-/

namespace Converter

/-! ## Constants (src/src/lib/constants.ts) -/

/-- MAX_FILE_SIZE = 2000 * 1024 * 1024 (the source comment reads 2GB, the
value is 2000 MiB = 2097152000 bytes, which is less than 2 GiB). -/
def MAX_FILE_SIZE : Nat := 2000 * 1024 * 1024

/-- CHUNK_SIZE = 2. -/
def CHUNK_SIZE : Nat := 2

/-- MIN_MEMORY = 64 MiB. -/
def MIN_MEMORY : Nat := 64 * 1024 * 1024

/-- DEFAULT_MEMORY = 512 MiB. -/
def DEFAULT_MEMORY : Nat := 512 * 1024 * 1024

/-- WEB_FRIENDLY_IMAGE_FORMATS from constants.ts. -/
def WEB_FRIENDLY_IMAGE_FORMATS : List String := ["jpg", "jpeg", "png", "webp"]

/-- VECTOR_FORMATS from constants.ts. -/
def VECTOR_FORMATS : List String := ["svg", "eps", "ai"]

/-! ## String helpers

Lean's built-in String.toLower, String.splitOn and String.startsWith do not
reduce inside the kernel, so the same operations are defined here over the
underlying character lists.  All names handled by the program are ASCII. -/

/-- Character-list version of splitting on the dot character; mirrors
JavaScript name.split for a single-character separator. -/
def splitDot : List Char → List (List Char)
  | [] => [[]]
  | c :: cs =>
    let r := splitDot cs
    if c = '.' then [] :: r
    else
      match r with
      | [] => [[c]]
      | h :: t => (c :: h) :: t

/-- Lower-casing a string (JavaScript toLowerCase on ASCII input). -/
def toLowerS (s : String) : String := String.mk (s.data.map Char.toLower)

/-- Boolean check that the list pre is an initial segment of the list s. -/
def headsList : List Char → List Char → Bool
  | [], _ => true
  | _ :: _, [] => false
  | a :: as, b :: bs => a = b && headsList as bs

/-- String version of JavaScript startsWith. -/
def strStartsWith (s pre : String) : Bool := headsList pre.data s.data

/-- getFileExtension from ffmpeg.ts: the regex (?:\.([^.]+))?$ yields the text
after the last dot when that text is nonempty, otherwise the empty string. -/
def getFileExtension (file_name : String) : String :=
  let parts := splitDot file_name.data
  if 2 ≤ parts.length then String.mk (parts.getLastD []) else ""

/-- removeFileExtension from ffmpeg.ts: everything before the last dot, or the
whole name when there is no dot. -/
def removeFileExtension (file_name : String) : String :=
  let parts := splitDot file_name.data
  if 2 ≤ parts.length then String.mk (List.intercalate ['.'] parts.dropLast)
  else file_name

/-! ## Memory budget estimator (calculateMemorySettings) -/

/-- Memory settings record returned by calculateMemorySettings: threads is the
value passed to the -threads flag (the parallelism hint), bufsize the value
passed to -bufsize, formatted in KiB. -/
structure MemSettings where
  threads : Nat
  bufsize : String
  deriving DecidableEq, Repr

/-- The available-memory value computed at the top of calculateMemorySettings:
the reported jsHeapSizeLimit when present and truthy (clamped from below by
MIN_MEMORY), otherwise DEFAULT_MEMORY.  The argument none covers both an
absent and a non-numeric report as well as a thrown access. -/
def availableMemoryOf (jsHeap : Option Nat) : Nat :=
  match jsHeap with
  | some m => if m ≠ 0 then max MIN_MEMORY m else DEFAULT_MEMORY
  | none => DEFAULT_MEMORY

/-- safeMemory = Math.floor(availableMemory * MEMORY_SPLIT) with
MEMORY_SPLIT = 0.8, embedded as multiplication by 4/5 in Nat arithmetic. -/
def safeMemoryOf (jsHeap : Option Nat) : Nat :=
  availableMemoryOf jsHeap * 4 / 5

/-- The byte value of the buffer-size clamp computed by
calculateMemorySettings before formatting:
min(max(fileSize * 2, 1 MiB), safeMemory). -/
def bufferSizeBytes (jsHeap : Option Nat) (fileSize : Nat) : Nat :=
  min (max (fileSize * 2) (1024 * 1024)) (safeMemoryOf jsHeap)

/-- calculateMemorySettings from ffmpeg.ts. -/
def calculateMemorySettings (jsHeap : Option Nat) (fileSize : Nat) :
    MemSettings :=
  let availableMemory := availableMemoryOf jsHeap
  let bufsize := bufferSizeBytes jsHeap fileSize
  let threads :=
    if 50 * 1024 * 1024 < fileSize ∨ availableMemory < 1024 * 1024 * 1024
    then 1 else 0
  { threads := threads, bufsize := toString (bufsize / 1024) ++ "K" }

/-! ## Codec presets and command recipe builders -/

/-- VIDEO_CODEC_PRESETS entries: the h264 shape carries codec, crf, preset and
profile fields, the vp8 shape carries codec, cpuUsed, deadline and bitrate
(the two record shapes of constants.ts, distinguished in the source by the
presence of a crf field). -/
inductive VideoPreset where
  | h264 (codec crf preset profile : String)
  | vp8 (codec cpuUsed deadline bitrate : String)
  deriving DecidableEq, Repr

/-- The h264 entry of VIDEO_CODEC_PRESETS. -/
def h264Preset : VideoPreset := .h264 "libx264" "28" "faster" "main"

/-- The vp8 entry of VIDEO_CODEC_PRESETS. -/
def vp8Preset : VideoPreset := .vp8 "libvpx" "4" "realtime" "1M"

/-- AUDIO_CODEC_PRESETS entries: either a codec with a bitrate or a codec with
a quality factor (the mp3 entry also carries compressionLevel, which
buildAudioCodecCommand never reads). -/
inductive AudioPreset where
  | withBitrate (codec bitrate : String)
  | withQuality (codec quality : String)
  deriving DecidableEq, Repr

/-- Lookup AUDIO_CODEC_PRESETS[format] with fallback to the aac entry. -/
def audioPresetFor (format : String) : AudioPreset :=
  if format = "aac" then .withBitrate "aac" "128k"
  else if format = "mp3" then .withBitrate "libmp3lame" "192k"
  else if format = "vorbis" then .withQuality "libvorbis" "4"
  else .withBitrate "aac" "128k"

/-- buildAudioCodecCommand from ffmpeg.ts. -/
def buildAudioCodecCommand (format : String) : List String :=
  match audioPresetFor format with
  | .withBitrate c b => ["-c:a", c, "-b:a", b]
  | .withQuality c q => ["-c:a", c, "-q:a", q]

/-- buildVideoCodecCommand from ffmpeg.ts. -/
def buildVideoCodecCommand (format : String) (preset : VideoPreset) :
    List String :=
  let cmd :=
    match preset with
    | .h264 codec crf pre _ => ["-c:v", codec, "-crf", crf, "-preset", pre]
    | .vp8 codec cpu dl br =>
      ["-c:v", codec, "-cpu-used", cpu, "-deadline", dl, "-b:v", br]
  let cmd :=
    if format = "3gp" then
      cmd ++ ["-r", "20", "-s", "352x288", "-profile:v", "baseline",
              "-level", "3.0", "-pix_fmt", "yuv420p", "-maxrate", "400k"]
    else cmd
  cmd ++ buildAudioCodecCommand format

/-- The video-format switch of buildFFmpegCommand (second revision): f is
the lower-cased target format; the default branch falls back to
buildVideoCodecCommand with the vp8 preset for webm and the h264 preset
otherwise (the preset choice compares the original format string). -/
def videoCodecSwitch (f format : String) : List String :=
  if f = "mp4v" then
    ["-c:v", "libx264", "-preset", "fast", "-crf", "28",
     "-profile:v", "baseline", "-level", "3.0", "-pix_fmt", "yuv420p",
     "-movflags", "+faststart", "-max_muxing_queue_size", "1024"]
  else if f = "m4v" then
    ["-c:v", "libx264", "-preset", "medium", "-crf", "23",
     "-profile:v", "high", "-level", "4.1"]
  else if f = "3gp" ∨ f = "3g2" then
    ["-c:v", "libx264", "-preset", "medium", "-crf", "28",
     "-profile:v", "baseline", "-level", "3.0", "-r", "20",
     "-s", "352x288", "-pix_fmt", "yuv420p", "-maxrate", "400k"]
  else if f = "avi" then
    ["-c:v", "libx264", "-preset", "medium", "-crf", "23",
     "-pix_fmt", "yuv420p"]
  else if f = "mov" then
    ["-c:v", "libx264", "-preset", "medium", "-crf", "23",
     "-profile:v", "high", "-level", "4.1", "-pix_fmt", "yuv420p"]
  else if f = "wmv" then
    ["-c:v", "wmv2", "-b:v", "2M", "-maxrate", "2M", "-bufsize", "4M"]
  else if f = "mkv" then
    ["-c:v", "libx264", "-preset", "medium", "-crf", "23",
     "-pix_fmt", "yuv420p"]
  else if f = "flv" then
    ["-c:v", "libx264", "-preset", "medium", "-crf", "23",
     "-pix_fmt", "yuv420p"]
  else if f = "ogv" then
    ["-c:v", "libtheora", "-q:v", "7"]
  else if f = "h264" ∨ f = "264" then
    ["-c:v", "libx264", "-preset", "medium", "-crf", "23",
     "-pix_fmt", "yuv420p"]
  else if f = "hevc" ∨ f = "265" then
    ["-c:v", "libx265", "-preset", "medium", "-crf", "28",
     "-pix_fmt", "yuv420p"]
  else
    buildVideoCodecCommand format
      (if format = "webm" then vp8Preset else h264Preset)

/-- The audio-format switch of buildFFmpegCommand (second revision). -/
def audioCodecSwitch (f format : String) : List String :=
  if f = "wma" then ["-c:a", "wmav2", "-b:a", "192k"]
  else if f = "flac" then ["-c:a", "flac", "-compression_level", "8"]
  else if f = "m4a" then
    ["-c:a", "aac", "-b:a", "192k", "-profile:a", "aac_low"]
  else buildAudioCodecCommand format

/-- buildFFmpegCommand from ffmpeg.ts (second revision, with the explicit
per-format video and audio switch factored into the two functions above). -/
def buildFFmpegCommand (format type input output : String)
    (memSettings : MemSettings) : List String :=
  let baseCmd := ["-nostdin", "-threads", toString memSettings.threads,
                  "-i", input]
  let codecCmd :=
    if strStartsWith type "video/" then videoCodecSwitch (toLowerS format) format
    else if strStartsWith type "audio/" then
      audioCodecSwitch (toLowerS format) format
    else []
  baseCmd ++ codecCmd ++ ["-y", output]

/-! ## Engine session model

The FFmpeg instance is an external collaborator.  Its virtual filesystem is
an association list from names to opaque byte blobs (Nat).  Everything the
engine does when a command is executed, what the canvas encoder produces, the
reported heap ceiling, and the dimension text parsed on the raw path, is
supplied by an oracle.  Every interaction with the engine and with the
orchestration callback is recorded in an event trace. -/

/-- Virtual filesystem: names mapped to opaque blob values. -/
abbrev VFS := List (String × Nat)

/-- Membership of a name in the virtual filesystem. -/
def memberFs (n : String) (fs : VFS) : Bool := fs.any (fun p => p.1 = n)

/-- Lookup of a name in the virtual filesystem. -/
def lookupFs (n : String) : VFS → Option Nat
  | [] => none
  | p :: ps => if p.1 = n then some p.2 else lookupFs n ps

/-- Removal of every entry with the given name. -/
def eraseFs (n : String) (fs : VFS) : VFS := fs.filter (fun p => p.1 ≠ n)

/-- Overwriting write of a name. -/
def insertFs (n : String) (v : Nat) (fs : VFS) : VFS := (n, v) :: eraseFs n fs

/-- Events observable at the engine and orchestration boundary.  The write,
read, delete and exec constructors are the virtual-filesystem and
command-execution calls on the engine session; callback records an invocation
of the per-job progress callback for the job at the given position of the
sorted batch (with the flag telling whether an error result was passed);
mutateFlags records the status-flag mutation convertFiles applies to a failed
job before its callback. -/
inductive Ev where
  | write (n : String)
  | read (n : String)
  | delete (n : String)
  | exec (argv : List String)
  | callback (i : Nat) (isErr : Bool)
  | mutateFlags (i : Nat)
  deriving DecidableEq, Repr

/-- External behavior supplied to the embedding: the heap ceiling reported to
calculateMemorySettings, the effect of one engine command execution on the
virtual filesystem (an error models a nonzero engine exit), the canvas
re-encode path (from source blob and target format to an output blob, an
error modelling a failed image decode or encode), and the parse of the probe
text on the raw-image path. -/
structure Oracle where
  jsHeap : Option Nat
  execEffect : List String → VFS → Except String VFS
  canvas : Nat → String → Except String Nat
  probeDims : Nat → Option (Nat × Nat)

/-- URL.createObjectURL modelled as a deterministic injective naming of
blobs. -/
def mkUrl (blob : Nat) : String := "blob:" ++ toString blob

/-- ffmpeg.writeFile: stages a blob under a name, always succeeds. -/
def writeFileE (fs : VFS) (n : String) (v : Nat) : VFS × List Ev :=
  (insertFs n v fs, [.write n])

/-- ffmpeg.readFile: returns the staged blob or fails. -/
def readFileE (fs : VFS) (n : String) : Except String Nat × List Ev :=
  (match lookupFs n fs with
   | some v => .ok v
   | none => .error "readFile failed", [.read n])

/-- ffmpeg.exec: emits the command, then applies the oracle effect; on an
engine error the filesystem is returned unchanged. -/
def execE (o : Oracle) (fs : VFS) (argv : List String) :
    Except String Unit × VFS × List Ev :=
  match o.execEffect argv fs with
  | .ok fs' => (.ok (), fs', [.exec argv])
  | .error e => (.error e, fs, [.exec argv])

/-- cleanupResources from ffmpeg.ts: both deletes are issued (Promise.all
starts both) and any failure is swallowed, so the net effect is the
unconditional removal of both names. -/
def cleanupResources (fs : VFS) (input output : String) : VFS × List Ev :=
  (eraseFs output (eraseFs input fs), [.delete input, .delete output])

/-! ## Data model (src/src/lib/types.tsx) -/

/-- The source blob of a job: its byte size and its opaque content. -/
structure FileData where
  size : Nat
  content : Nat
  deriving DecidableEq, Repr

/-- The fields of ExtendedFile read by the conversion core: name, MIME type,
user-selected target extension (named to in the source, renamed toFormat here
because to is a reserved word in Lean; empty when not yet chosen, which is
also how the code's falsiness test treats undefined) and the source blob. -/
structure ExtendedFile where
  name : String
  type : String
  toFormat : String
  fileData : Option FileData
  deriving DecidableEq, Repr

/-- Successful conversion result of convertFile: object URL and output file
name. -/
structure ConvOk where
  url : String
  output : String
  deriving DecidableEq, Repr

/-! ## Single-file converter (convertFile, second revision) -/

/-- The size-limit error message thrown by convertFile (the template literal
prints MAX_FILE_SIZE divided by 1024 * 1024, that is 2000). -/
def sizeErrorMsg : String :=
  "File size exceeds maximum limit of " ++
    toString (MAX_FILE_SIZE / (1024 * 1024)) ++ "MB"

/-- The raw-format dimension probe inside handleImageConversion: run the
probe command, read the engine log file, parse the dimensions; every failure
is caught and the 1920x1080 defaults are used. -/
def rawProbe (o : Oracle) (fs : VFS) (input : String) :
    (Nat × Nat) × VFS × List Ev :=
  match execE o fs ["-i", input] with
  | (.error _, fsA, eA) => ((1920, 1080), fsA, eA)
  | (.ok _, fsA, eA) =>
    match readFileE fsA "ffmpeg-output.txt" with
    | (.error _, eR) => ((1920, 1080), fsA, eA ++ eR)
    | (.ok txt, eR) =>
      match o.probeDims txt with
      | some wh => (wh, fsA, eA ++ eR)
      | none => ((1920, 1080), fsA, eA ++ eR)

/-- The format switch of handleImageConversion: appends the per-format flags
to the command built so far; only the raw case interacts with the engine
(through its probe). -/
def imageFormatArgs (o : Oracle) (fs : VFS) (input : String)
    (f : String) (cmd1 : List String) : List String × VFS × List Ev :=
  if f = "tiff" ∨ f = "tif" then
    (cmd1 ++ ["-compression_algo", "lzw"], fs, [])
  else if f = "bmp" then
    (cmd1 ++ ["-pix_fmt", "rgb24"], fs, [])
  else if f = "gif" then
    (cmd1 ++ ["-filter_complex",
              "[0:v] split [a][b];[a] palettegen [p];[b][p] paletteuse",
              "-max_muxing_queue_size", "1024"], fs, [])
  else if f = "raw" then
    let (dims, fsB, eB) := rawProbe o fs input
    (cmd1 ++ ["-f", "rawvideo", "-pix_fmt", "rgb24",
              "-s", toString dims.1 ++ "x" ++ toString dims.2],
     fsB, eB)
  else (cmd1, fs, [])

/-- The base image command of handleImageConversion: the ffmpeg_cmd array as
it stands right before the format switch, with the bufsize flag appended
when memSettings.bufsize is truthy (it always is, being a nonempty
string). -/
def imageCmd1 (memSettings : MemSettings) (input : String) : List String :=
  if memSettings.bufsize ≠ "" then
    ["-nostdin", "-threads", toString memSettings.threads, "-i", input,
     "-compression_level", "7"] ++ ["-bufsize", memSettings.bufsize]
  else
    ["-nostdin", "-threads", toString memSettings.threads, "-i", input,
     "-compression_level", "7"]

/-- handleImageConversion from ffmpeg.ts (second revision): stage the input,
build the image command with per-format flags (tiff, bmp, gif, raw with its
probe), execute it, read the output back.  No cleanup on any path. -/
def handleImageConversion (o : Oracle) (fs : VFS) (content : Nat)
    (input output format : String) (memSettings : MemSettings) :
    Except String ConvOk × VFS × List Ev :=
  match imageFormatArgs o (writeFileE fs input content).1 input
      (toLowerS format) (imageCmd1 memSettings input) with
  | (cmd2, fs2, e2) =>
    match execE o fs2 (cmd2 ++ [output]) with
    | (.error e, fs3, e3) =>
      (.error e, fs3, (writeFileE fs input content).2 ++ e2 ++ e3)
    | (.ok _, fs3, e3) =>
      match readFileE fs3 output with
      | (.error e, e4) =>
        (.error e, fs3, (writeFileE fs input content).2 ++ e2 ++ e3 ++ e4)
      | (.ok data, e4) =>
        (.ok { url := mkUrl data, output := output }, fs3,
         (writeFileE fs input content).2 ++ e2 ++ e3 ++ e4)

/-- The try-block of convertFile: the image branch (canvas path for vector
and web-friendly targets, handleImageConversion otherwise) and the
audio/video engine path with its pre-clean, staging, command execution,
read-back and final cleanup. -/
def convertFileTry (o : Oracle) (fs : VFS) (f : ExtendedFile) (fd : FileData)
    (input output : String) (memSettings : MemSettings) :
    Except String ConvOk × VFS × List Ev :=
  if strStartsWith f.type "image/" then
    if VECTOR_FORMATS.contains (toLowerS f.toFormat) ∨
        WEB_FRIENDLY_IMAGE_FORMATS.contains (toLowerS f.toFormat) then
      match o.canvas fd.content f.toFormat with
      | .ok blob => (.ok { url := mkUrl blob, output := output }, fs, [])
      | .error e => (.error e, fs, [])
    else
      handleImageConversion o fs fd.content input output f.toFormat memSettings
  else
    match execE o
        (writeFileE (cleanupResources fs input output).1 input fd.content).1
        (buildFFmpegCommand (toLowerS f.toFormat) f.type input output
          memSettings) with
    | (.error e, fs3, e3) =>
      (.error e, fs3,
       (cleanupResources fs input output).2 ++
         (writeFileE (cleanupResources fs input output).1 input fd.content).2 ++
         e3)
    | (.ok _, fs3, e3) =>
      match readFileE fs3 output with
      | (.error e, e4) =>
        (.error e, fs3,
         (cleanupResources fs input output).2 ++
           (writeFileE (cleanupResources fs input output).1 input
             fd.content).2 ++ e3 ++ e4)
      | (.ok data, e4) =>
        (.ok { url := mkUrl data, output := output },
         (cleanupResources fs3 input output).1,
         (cleanupResources fs input output).2 ++
           (writeFileE (cleanupResources fs input output).1 input
             fd.content).2 ++ e3 ++ e4 ++
           (cleanupResources fs3 input output).2)

/-- convertFile from ffmpeg.ts (second revision): precondition checks for a
missing target, missing data and oversize source, then the try-block, with
the catch running cleanupResources before re-throwing. -/
def convertFile (o : Oracle) (fs : VFS) (f : ExtendedFile) :
    Except String ConvOk × VFS × List Ev :=
  if f.toFormat = "" then (.error "Output format 'to' is undefined", fs, [])
  else
    match f.fileData with
    | none => (.error "File data is undefined", fs, [])
    | some fd =>
      if MAX_FILE_SIZE < fd.size then (.error sizeErrorMsg, fs, [])
      else
        let input := getFileExtension f.name
        let output := removeFileExtension f.name ++ "." ++ f.toFormat
        let memSettings := calculateMemorySettings o.jsHeap fd.size
        match convertFileTry o fs f fd input output memSettings with
        | (.ok r, fs', evs) => (.ok r, fs', evs)
        | (.error e, fs', evs) =>
          (.error e, (cleanupResources fs' input output).1,
           evs ++ (cleanupResources fs' input output).2)

/-! ## Batch orchestrator (convertFiles, second revision) -/

/-- Result record pushed into the batch result array: url and output of a
success, or empty strings plus the error message of a failure. -/
structure ResultRec where
  url : String
  output : String
  error : Option String
  deriving DecidableEq, Repr

/-- One entry of the batch result array, tagged with the position of its job
in the size-sorted order. -/
structure Entry where
  idx : Nat
  file : ExtendedFile
  result : ResultRec
  deriving DecidableEq, Repr

/-- Sort key used by convertFiles: fileData.size with 0 for a missing blob. -/
def sizeKey (f : ExtendedFile) : Nat :=
  match f.fileData with
  | some fd => fd.size
  | none => 0

/-- The stable ascending sort performed by Array.prototype.sort with the
size-difference comparator (stable by the ECMAScript specification, so equal
to any stable sort by the same key). -/
def sortFiles (files : List ExtendedFile) : List ExtendedFile :=
  List.insertionSort (fun a b => sizeKey a ≤ sizeKey b) files

/-- Partition into the successive slices taken by the loop
for (i = 0; i < n; i += CHUNK_SIZE) slice(i, i + CHUNK_SIZE), instantiated at
CHUNK_SIZE = 2. -/
def chunksOf : List ExtendedFile → List (List ExtendedFile)
  | [] => []
  | [a] => [[a]]
  | a :: b :: rest => [a, b] :: chunksOf rest

/-- Per-job body of the chunk loop: convert, push the result entry, on
failure set the status flags, and invoke the progress callback. -/
def processJob (o : Oracle) (fs : VFS) (i : Nat) (f : ExtendedFile) :
    Entry × VFS × List Ev :=
  match convertFile o fs f with
  | (.ok r, fs', evs) =>
    ({ idx := i, file := f,
       result := { url := r.url, output := r.output, error := none } },
     fs', evs ++ [.callback i false])
  | (.error e, fs', evs) =>
    ({ idx := i, file := f,
       result := { url := "", output := "", error := some e } },
     fs', evs ++ [.mutateFlags i, .callback i true])

/-- Sequential processing of the jobs of one chunk. -/
def processJobs (o : Oracle) (fs : VFS) (i : Nat) :
    List ExtendedFile → List Entry × VFS × List Ev
  | [] => ([], fs, [])
  | f :: rest =>
    ((processJob o fs i f).1 ::
       (processJobs o (processJob o fs i f).2.1 (i + 1) rest).1,
     (processJobs o (processJob o fs i f).2.1 (i + 1) rest).2.1,
     (processJob o fs i f).2.2 ++
       (processJobs o (processJob o fs i f).2.1 (i + 1) rest).2.2)

/-- One iteration of the chunk loop: the engine-clear command followed by the
per-job processing; a failure of the clear is caught by the chunk-level
catch, which only logs, so the chunk contributes no entries and no further
events. -/
def processChunk (o : Oracle) (fs : VFS) (i : Nat)
    (chunk : List ExtendedFile) : List Entry × VFS × List Ev :=
  match execE o fs ["-nostdin"] with
  | (.error _, fs1, e1) => ([], fs1, e1)
  | (.ok _, fs1, e1) =>
    ((processJobs o fs1 i chunk).1,
     (processJobs o fs1 i chunk).2.1,
     e1 ++ (processJobs o fs1 i chunk).2.2)

/-- Folding the chunk loop over all chunks, threading the filesystem and the
position of the first job of each chunk in the sorted order. -/
def runChunks (o : Oracle) (fs : VFS) (i : Nat) :
    List (List ExtendedFile) → List Entry × VFS × List Ev
  | [] => ([], fs, [])
  | c :: cs =>
    ((processChunk o fs i c).1 ++
       (runChunks o (processChunk o fs i c).2.1 (i + c.length) cs).1,
     (runChunks o (processChunk o fs i c).2.1 (i + c.length) cs).2.1,
     (processChunk o fs i c).2.2 ++
       (runChunks o (processChunk o fs i c).2.1 (i + c.length) cs).2.2)

/-- convertFiles from ffmpeg.ts (second revision): sort ascending by source
size, chunk, and run the chunk loop.  The function is total; no exception
escapes it. -/
def convertFiles (o : Oracle) (fs : VFS) (files : List ExtendedFile) :
    List Entry × VFS × List Ev :=
  runChunks o fs 0 (chunksOf (sortFiles files))

/-! ## Concrete oracles and jobs used as witnesses and counterexamples -/

/-- Last element of an argv list. -/
def lastOf (l : List String) : String := l.getLastD ""

/-- A well-behaved engine: a clear command leaves the filesystem alone, any
other command writes blob 7 to the file named by its final argument (the
built commands all end with the output name); the canvas encoder always
produces blob 9; a 2 GiB heap ceiling is reported. -/
def happyOracle : Oracle where
  jsHeap := some (2 * 1024 * 1024 * 1024)
  execEffect := fun argv fs =>
    if argv = ["-nostdin"] then .ok fs else .ok (insertFs (lastOf argv) 7 fs)
  canvas := fun _ _ => .ok 9
  probeDims := fun _ => none

/-- An engine whose clear command always fails; other commands behave as in
happyOracle. -/
def failClearOracle : Oracle where
  jsHeap := some (2 * 1024 * 1024 * 1024)
  execEffect := fun argv fs =>
    if argv = ["-nostdin"] then .error "exec failed"
    else .ok (insertFs (lastOf argv) 7 fs)
  canvas := fun _ _ => .ok 9
  probeDims := fun _ => none

/-- An engine as in happyOracle but with a canvas path that fails to decode
the image. -/
def canvasFailOracle : Oracle where
  jsHeap := some (2 * 1024 * 1024 * 1024)
  execEffect := fun argv fs =>
    if argv = ["-nostdin"] then .ok fs else .ok (insertFs (lastOf argv) 7 fs)
  canvas := fun _ _ => .error "Failed to load image"
  probeDims := fun _ => none

/-- Audio job used in concrete scenarios (succeeds under happyOracle). -/
def jobA : ExtendedFile :=
  { name := "a.wav", type := "audio/wav", toFormat := "mp3",
    fileData := some { size := 10, content := 1 } }

/-- Job with an empty target format: violates the first precondition. -/
def jobNoTarget : ExtendedFile :=
  { name := "b.wav", type := "audio/wav", toFormat := "",
    fileData := some { size := 20, content := 2 } }

/-- Second audio job, larger than the two above. -/
def jobC : ExtendedFile :=
  { name := "c.wav", type := "audio/wav", toFormat := "mp3",
    fileData := some { size := 30, content := 3 } }

/-- The three-job batch of the batch-isolation scenario: the middle job (by
size) has an empty target. -/
def demoBatch : List ExtendedFile := [jobA, jobNoTarget, jobC]

/-- Image job whose target tiff goes through the FFmpeg image path. -/
def jobTiff : ExtendedFile :=
  { name := "photo.png", type := "image/png", toFormat := "tiff",
    fileData := some { size := 5, content := 4 } }

/-- Image job targeting svg, one of the vector formats. -/
def jobSvg : ExtendedFile :=
  { name := "pic.png", type := "image/png", toFormat := "svg",
    fileData := some { size := 6, content := 5 } }

/-- Image job targeting jpg, one of the web-friendly formats. -/
def jobJpg : ExtendedFile :=
  { name := "shot.png", type := "image/png", toFormat := "jpg",
    fileData := some { size := 7, content := 6 } }

/-- Job at exactly 2 GiB = 2147483648 bytes, above the code's 2000 MiB
limit. -/
def jobTwoGib : ExtendedFile :=
  { name := "big.wav", type := "audio/wav", toFormat := "mp3",
    fileData := some { size := 2147483648, content := 8 } }

/-- Five distinct-size audio jobs for the chunking scenario. -/
def fiveJobs : List ExtendedFile :=
  [ { name := "f1.wav", type := "audio/wav", toFormat := "mp3",
      fileData := some { size := 50, content := 11 } },
    { name := "f2.wav", type := "audio/wav", toFormat := "mp3",
      fileData := some { size := 40, content := 12 } },
    { name := "f3.wav", type := "audio/wav", toFormat := "mp3",
      fileData := some { size := 30, content := 13 } },
    { name := "f4.wav", type := "audio/wav", toFormat := "mp3",
      fileData := some { size := 20, content := 14 } },
    { name := "f5.wav", type := "audio/wav", toFormat := "mp3",
      fileData := some { size := 10, content := 15 } } ]

/-- Two source files with different names but the same extension. -/
def jobM1 : ExtendedFile :=
  { name := "holiday.mp4", type := "video/mp4", toFormat := "avi",
    fileData := some { size := 10, content := 21 } }

/-- Second job sharing the mp4 extension of jobM1. -/
def jobM2 : ExtendedFile :=
  { name := "work.mp4", type := "video/mp4", toFormat := "avi",
    fileData := some { size := 20, content := 22 } }

/-! ## Trace observations -/

/-- The subsequence of progress-callback invocations in a trace, as pairs of
job position and error flag. -/
def cbEvents (evs : List Ev) : List (Nat × Bool) :=
  evs.filterMap (fun e =>
    match e with
    | .callback i b => some (i, b)
    | _ => none)

/-- Recognizer of the per-chunk engine-clear command. -/
def isClearEv : Ev → Bool
  | .exec argv => argv = ["-nostdin"]
  | _ => false

/-- Number of engine-clear commands in a trace. -/
def clearCount (evs : List Ev) : Nat := evs.countP isClearEv

/-- Recognizer of engine-boundary events (as opposed to the orchestration
events callback and mutateFlags). -/
def engineEv : Ev → Bool
  | .write _ => true
  | .read _ => true
  | .delete _ => true
  | .exec _ => true
  | .callback _ _ => false
  | .mutateFlags _ => false

/-- An event emitted from inside convertFile: an engine-boundary event that
is not the chunk-level clear command. -/
def goodEv (ev : Ev) : Prop := engineEv ev = true ∧ isClearEv ev = false

end Converter

deriving instance DecidableEq for Except

namespace Converter

/-! ## Helper lemmas -/

theorem memberFs_eraseFs_self (n : String) (fs : VFS) :
    memberFs n (eraseFs n fs) = false := by
  induction fs with
  | nil => rfl
  | cons p ps ih =>
    by_cases h : p.1 = n
    · simp only [eraseFs] at ih ⊢
      simp only [List.filter_cons, h]
      simpa using ih
    · simp only [eraseFs] at ih ⊢
      simp only [List.filter_cons, memberFs, List.any_cons] at ih ⊢
      simp [h, ih]

theorem memberFs_eraseFs_mono (n m : String) (fs : VFS)
    (h : memberFs n fs = false) : memberFs n (eraseFs m fs) = false := by
  induction fs with
  | nil => rfl
  | cons p ps ih =>
    simp only [memberFs, List.any_cons, Bool.or_eq_false_iff] at h
    by_cases hm : p.1 = m
    · simpa [eraseFs, hm] using ih h.2
    · simpa [eraseFs, memberFs, hm, h.1] using ih h.2

theorem lookupFs_insertFs_self (n : String) (v : Nat) (fs : VFS) :
    lookupFs n (insertFs n v fs) = some v := by
  simp [insertFs, lookupFs]

theorem lastOf_concat (l : List String) (a : String) :
    lastOf (l ++ [a]) = a := by
  simp [lastOf]

/-! ## Claim C7: memory budget estimator -/

/-- Claim C7 (confirmed).  The estimator returns a parallelism hint of 1
exactly when the file exceeds 50 MiB or the (clamped or defaulted) memory
ceiling is below 1 GiB and 0 otherwise, and its buffer-size value is
clamp(2 x file size, 1 MiB, floor of 80 percent of the ceiling), which is
also what the returned bufsize string prints in KiB; in particular a 10 MiB
file under a reported 2 GiB ceiling gets hint 0 with a buffer between 1 MiB
and the safe working set, and a 100 MiB file gets hint 1 under every
reported ceiling. -/
theorem calculateMemorySettings_spec (jsHeap : Option Nat) (fileSize : Nat) :
    ((calculateMemorySettings jsHeap fileSize).threads = 1 ↔
      (50 * 1024 * 1024 < fileSize ∨
        availableMemoryOf jsHeap < 1024 * 1024 * 1024)) ∧
    ((calculateMemorySettings jsHeap fileSize).threads = 0 ↔
      ¬ (50 * 1024 * 1024 < fileSize ∨
        availableMemoryOf jsHeap < 1024 * 1024 * 1024)) ∧
    bufferSizeBytes jsHeap fileSize =
      min (max (fileSize * 2) (1024 * 1024)) (availableMemoryOf jsHeap * 4 / 5) ∧
    (calculateMemorySettings jsHeap fileSize).bufsize =
      toString (bufferSizeBytes jsHeap fileSize / 1024) ++ "K" ∧
    ((calculateMemorySettings (some (2 * 1024 * 1024 * 1024))
        (10 * 1024 * 1024)).threads = 0 ∧
      1024 * 1024 ≤ bufferSizeBytes (some (2 * 1024 * 1024 * 1024))
        (10 * 1024 * 1024) ∧
      bufferSizeBytes (some (2 * 1024 * 1024 * 1024)) (10 * 1024 * 1024) ≤
        safeMemoryOf (some (2 * 1024 * 1024 * 1024))) ∧
    (calculateMemorySettings jsHeap (100 * 1024 * 1024)).threads = 1 := by
  refine ⟨?_, ?_, rfl, rfl, by decide, ?_⟩
  · by_cases h : 50 * 1024 * 1024 < fileSize ∨
        availableMemoryOf jsHeap < 1024 * 1024 * 1024 <;>
      simp [calculateMemorySettings, h]
  · by_cases h : 50 * 1024 * 1024 < fileSize ∨
        availableMemoryOf jsHeap < 1024 * 1024 * 1024 <;>
      simp [calculateMemorySettings, h]
  · have h : 50 * 1024 * 1024 < 100 * 1024 * 1024 ∨
        availableMemoryOf jsHeap < 1024 * 1024 * 1024 := Or.inl (by norm_num)
    simp [calculateMemorySettings, h]

/-- Closed instantiation of the C7 theorem. -/
theorem calculateMemorySettings_spec_witness :
    (calculateMemorySettings (some (2 * 1024 * 1024 * 1024))
        (10 * 1024 * 1024)).threads = 0 ∧
    (calculateMemorySettings (some (64 * 1024 * 1024))
        (100 * 1024 * 1024)).threads = 1 :=
  ⟨(calculateMemorySettings_spec (some (2 * 1024 * 1024 * 1024))
      (10 * 1024 * 1024)).2.2.2.2.1.1,
   (calculateMemorySettings_spec (some (64 * 1024 * 1024)) 0).2.2.2.2.2⟩

/-! ## Claim C8: recipe builder content -/

/-- Claim C8 counterexample.  The recipe built for the 3gp video target
contains no audio codec directive at all: the -c:a token is absent, so a
video recipe is not always paired with an audio sub-recipe. -/
theorem buildFFmpegCommand_3gp_no_audio_counterexample :
    buildFFmpegCommand "3gp" "video/mp4" "mp4" "clip.3gp"
        { threads := 0, bufsize := "1024K" } =
      ["-nostdin", "-threads", "0", "-i", "mp4",
       "-c:v", "libx264", "-preset", "medium", "-crf", "28",
       "-profile:v", "baseline", "-level", "3.0", "-r", "20",
       "-s", "352x288", "-pix_fmt", "yuv420p", "-maxrate", "400k",
       "-y", "clip.3gp"] ∧
    "-c:a" ∉ buildFFmpegCommand "3gp" "video/mp4" "mp4" "clip.3gp"
      { threads := 0, bufsize := "1024K" } := by decide

/-- Claim C8 as amended.  For every video MIME type the webm recipe contains
the VP8-family codec token libvpx together with a paired audio codec
directive (the aac fallback), and the 3gp recipe contains the forced
low-resolution and frame-rate tokens; but the audio pairing holds only on
the default branch of the builder (such as webm), not on the explicitly
cased targets such as 3gp, whose recipes carry no audio directive. -/
theorem buildFFmpegCommand_recipe_content (type input output : String)
    (m : MemSettings) (hv : strStartsWith type "video/" = true) :
    (buildFFmpegCommand "webm" type input output m =
      ["-nostdin", "-threads", toString m.threads, "-i", input,
       "-c:v", "libvpx", "-cpu-used", "4", "-deadline", "realtime",
       "-b:v", "1M", "-c:a", "aac", "-b:a", "128k", "-y", output] ∧
     "libvpx" ∈ buildFFmpegCommand "webm" type input output m ∧
     "-c:a" ∈ buildFFmpegCommand "webm" type input output m) ∧
    (buildFFmpegCommand "3gp" type input output m =
      ["-nostdin", "-threads", toString m.threads, "-i", input,
       "-c:v", "libx264", "-preset", "medium", "-crf", "28",
       "-profile:v", "baseline", "-level", "3.0", "-r", "20",
       "-s", "352x288", "-pix_fmt", "yuv420p", "-maxrate", "400k",
       "-y", output] ∧
     "-r" ∈ buildFFmpegCommand "3gp" type input output m ∧
     "20" ∈ buildFFmpegCommand "3gp" type input output m ∧
     "-s" ∈ buildFFmpegCommand "3gp" type input output m ∧
     "352x288" ∈ buildFFmpegCommand "3gp" type input output m ∧
     "-c:a" ∉ videoCodecSwitch (toLowerS "3gp") "3gp") := by
  have hcw : videoCodecSwitch (toLowerS "webm") "webm" =
      ["-c:v", "libvpx", "-cpu-used", "4", "-deadline", "realtime",
       "-b:v", "1M", "-c:a", "aac", "-b:a", "128k"] := by decide
  have hc3 : videoCodecSwitch (toLowerS "3gp") "3gp" =
      ["-c:v", "libx264", "-preset", "medium", "-crf", "28",
       "-profile:v", "baseline", "-level", "3.0", "-r", "20",
       "-s", "352x288", "-pix_fmt", "yuv420p", "-maxrate", "400k"] := by
    decide
  have hwebm : buildFFmpegCommand "webm" type input output m =
      ["-nostdin", "-threads", toString m.threads, "-i", input,
       "-c:v", "libvpx", "-cpu-used", "4", "-deadline", "realtime",
       "-b:v", "1M", "-c:a", "aac", "-b:a", "128k", "-y", output] := by
    simp [buildFFmpegCommand, hv, hcw]
  have h3gp : buildFFmpegCommand "3gp" type input output m =
      ["-nostdin", "-threads", toString m.threads, "-i", input,
       "-c:v", "libx264", "-preset", "medium", "-crf", "28",
       "-profile:v", "baseline", "-level", "3.0", "-r", "20",
       "-s", "352x288", "-pix_fmt", "yuv420p", "-maxrate", "400k",
       "-y", output] := by
    simp [buildFFmpegCommand, hv, hc3]
  rw [hwebm, h3gp]
  refine ⟨⟨rfl, ?_, ?_⟩, rfl, ?_, ?_, ?_, ?_, by decide⟩ <;> simp

/-! ## Claim C2: precondition fail-fast and the size ceiling -/

/-- Claim C2 counterexample.  A job of exactly 2 GiB = 2147483648 bytes is at
the ceiling named by the claim, yet convertFile rejects it for size, because
the code's MAX_FILE_SIZE is 2000 MiB = 2097152000 bytes, not 2 GiB. -/
theorem convertFile_two_gib_rejected_counterexample :
    (convertFile happyOracle [] jobTwoGib).1 = .error sizeErrorMsg ∧
    sizeErrorMsg = "File size exceeds maximum limit of 2000MB" ∧
    jobTwoGib.fileData = some { size := 2147483648, content := 8 } ∧
    (2147483648 : Nat) ≤ 2 * 1024 * 1024 * 1024 := by decide

/-- Claim C2 as amended.  convertFile fails fast with a message specific to
the violated precondition, missing target first, then missing data, then
oversize source, each before any engine command, virtual-filesystem
operation or staging (the state and trace are returned untouched); a job is
rejected for size exactly when its byte size exceeds MAX_FILE_SIZE =
2000 MiB = 2097152000 bytes (not 2 GiB as the claim said), and a job at or
below that value always proceeds into the conversion body. -/
theorem convertFile_precondition_fail_fast (o : Oracle) (fs : VFS)
    (f : ExtendedFile) :
    (f.toFormat = "" →
      convertFile o fs f = (.error "Output format 'to' is undefined", fs, [])) ∧
    (f.toFormat ≠ "" → f.fileData = none →
      convertFile o fs f = (.error "File data is undefined", fs, [])) ∧
    (∀ fd, f.toFormat ≠ "" → f.fileData = some fd →
      MAX_FILE_SIZE < fd.size →
      convertFile o fs f = (.error sizeErrorMsg, fs, [])) ∧
    (∀ fd, f.toFormat ≠ "" → f.fileData = some fd →
      fd.size ≤ MAX_FILE_SIZE →
      convertFile o fs f =
        (match convertFileTry o fs f fd (getFileExtension f.name)
            (removeFileExtension f.name ++ "." ++ f.toFormat)
            (calculateMemorySettings o.jsHeap fd.size) with
         | (.ok r, fs', evs) => (.ok r, fs', evs)
         | (.error e, fs', evs) =>
           (.error e,
            (cleanupResources fs' (getFileExtension f.name)
              (removeFileExtension f.name ++ "." ++ f.toFormat)).1,
            evs ++ (cleanupResources fs' (getFileExtension f.name)
              (removeFileExtension f.name ++ "." ++ f.toFormat)).2))) := by
  refine ⟨?_, ?_, ?_, ?_⟩
  · intro ht
    simp [convertFile, ht]
  · intro ht hd
    simp [convertFile, ht, hd]
  · intro fd ht hd hsz
    simp [convertFile, ht, hd, hsz]
  · intro fd ht hd hsz
    have h1 : ¬ MAX_FILE_SIZE < fd.size := by omega
    simp only [convertFile, ht, hd, h1, if_neg, if_false, ite_false]

/-- Closed instantiation of the C2 theorem. -/
theorem convertFile_precondition_fail_fast_witness :
    convertFile happyOracle [] jobNoTarget =
      (.error "Output format 'to' is undefined", [], []) :=
  (convertFile_precondition_fail_fast happyOracle [] jobNoTarget).1 (by decide)

/-! ## Claims C3 and C6: the canvas path -/

theorem canvasPath_spec (o : Oracle) (fs : VFS) (f : ExtendedFile)
    (fd : FileData)
    (himg : strStartsWith f.type "image/" = true)
    (hmem : VECTOR_FORMATS.contains (toLowerS f.toFormat) = true ∨
      WEB_FRIENDLY_IMAGE_FORMATS.contains (toLowerS f.toFormat) = true)
    (ht : f.toFormat ≠ "") (hd : f.fileData = some fd)
    (hs : fd.size ≤ MAX_FILE_SIZE) :
    (∀ blob, o.canvas fd.content f.toFormat = .ok blob →
      convertFile o fs f =
        (.ok { url := mkUrl blob,
               output := removeFileExtension f.name ++ "." ++ f.toFormat },
         fs, [])) ∧
    (∀ e, o.canvas fd.content f.toFormat = .error e →
      convertFile o fs f =
        (.error e,
         eraseFs (removeFileExtension f.name ++ "." ++ f.toFormat)
           (eraseFs (getFileExtension f.name) fs),
         [.delete (getFileExtension f.name),
          .delete (removeFileExtension f.name ++ "." ++ f.toFormat)])) := by
  have hsz : ¬ MAX_FILE_SIZE < fd.size := by omega
  have hmem' : toLowerS f.toFormat ∈ VECTOR_FORMATS ∨
      toLowerS f.toFormat ∈ WEB_FRIENDLY_IMAGE_FORMATS := by
    simpa using hmem
  constructor
  · intro blob hb
    simp [convertFile, convertFileTry, ht, hd, hsz, himg, hmem', hb]
  · intro e he
    simp [convertFile, convertFileTry, ht, hd, hsz, himg, hmem', he,
      cleanupResources]

/-- Claim C3 counterexample.  An image job targeting svg is not rejected:
under an engine whose canvas succeeds, convertFile succeeds through the
canvas path with an empty engine trace, instead of failing with the
unsupported-direct-conversion error the claim requires. -/
theorem convertFile_svg_not_rejected_counterexample :
    (convertFile happyOracle [] jobSvg).1 =
      .ok { url := "blob:9", output := "pic.svg" } ∧
    (convertFile happyOracle [] jobSvg).2.2 = [] := by decide

/-- Claim C3 as amended.  For every image job whose lower-cased target is one
of svg, eps, ai (and which passes the preconditions), convertFile does not
reject the job: it takes the canvas re-encode path exactly as for the
web-friendly targets, succeeding with the canvas blob when the canvas
succeeds (with no engine interaction and no recipe built), and propagating
the canvas error after the best-effort cleanup deletes when it fails. -/
theorem convertFile_vector_canvas_path (o : Oracle) (fs : VFS)
    (f : ExtendedFile) (fd : FileData)
    (himg : strStartsWith f.type "image/" = true)
    (hvec : VECTOR_FORMATS.contains (toLowerS f.toFormat) = true)
    (ht : f.toFormat ≠ "") (hd : f.fileData = some fd)
    (hs : fd.size ≤ MAX_FILE_SIZE) :
    (∀ blob, o.canvas fd.content f.toFormat = .ok blob →
      convertFile o fs f =
        (.ok { url := mkUrl blob,
               output := removeFileExtension f.name ++ "." ++ f.toFormat },
         fs, [])) ∧
    (∀ e, o.canvas fd.content f.toFormat = .error e →
      convertFile o fs f =
        (.error e,
         eraseFs (removeFileExtension f.name ++ "." ++ f.toFormat)
           (eraseFs (getFileExtension f.name) fs),
         [.delete (getFileExtension f.name),
          .delete (removeFileExtension f.name ++ "." ++ f.toFormat)])) :=
  canvasPath_spec o fs f fd himg (Or.inl hvec) ht hd hs

/-- Closed instantiation of the C3 theorem. -/
theorem convertFile_vector_canvas_path_witness :
    convertFile happyOracle [] jobSvg =
      (.ok { url := "blob:9", output := "pic.svg" }, [], []) :=
  (convertFile_vector_canvas_path happyOracle [] jobSvg
      { size := 6, content := 5 } (by decide) (by decide) (by decide)
      (by decide) (by decide)).1 9 (by decide)

/-- Claim C6 counterexample.  When the canvas decode fails for a jpg-target
image job, the catch block of convertFile issues delete calls against the
engine's virtual filesystem, so the engine is touched on this path even
though the target is web-friendly. -/
theorem convertFile_canvas_failure_touches_vfs_counterexample :
    (convertFile canvasFailOracle [] jobJpg).1 = .error "Failed to load image" ∧
    Ev.delete "png" ∈ (convertFile canvasFailOracle [] jobJpg).2.2 ∧
    (convertFile canvasFailOracle [] jobJpg).2.2 ≠ [] := by decide

/-- Claim C6 as amended.  For every image job whose lower-cased target is one
of jpg, jpeg, png, webp (and which passes the preconditions), convertFile
converts via the canvas path only: when the canvas succeeds the engine is
never touched in any way (the virtual filesystem and the trace are returned
unchanged); when the canvas fails, the only engine interaction is the pair
of best-effort cleanup deletes issued by the catch block before the error
propagates. -/
theorem convertFile_web_friendly_canvas_frame (o : Oracle) (fs : VFS)
    (f : ExtendedFile) (fd : FileData)
    (himg : strStartsWith f.type "image/" = true)
    (hweb : WEB_FRIENDLY_IMAGE_FORMATS.contains (toLowerS f.toFormat) = true)
    (ht : f.toFormat ≠ "") (hd : f.fileData = some fd)
    (hs : fd.size ≤ MAX_FILE_SIZE) :
    (∀ blob, o.canvas fd.content f.toFormat = .ok blob →
      convertFile o fs f =
        (.ok { url := mkUrl blob,
               output := removeFileExtension f.name ++ "." ++ f.toFormat },
         fs, [])) ∧
    (∀ e, o.canvas fd.content f.toFormat = .error e →
      convertFile o fs f =
        (.error e,
         eraseFs (removeFileExtension f.name ++ "." ++ f.toFormat)
           (eraseFs (getFileExtension f.name) fs),
         [.delete (getFileExtension f.name),
          .delete (removeFileExtension f.name ++ "." ++ f.toFormat)])) :=
  canvasPath_spec o fs f fd himg (Or.inr hweb) ht hd hs

/-- Closed instantiation of the C6 theorem. -/
theorem convertFile_web_friendly_canvas_frame_witness :
    convertFile happyOracle [] jobJpg =
      (.ok { url := "blob:9", output := "shot.jpg" }, [], []) :=
  (convertFile_web_friendly_canvas_frame happyOracle [] jobJpg
      { size := 7, content := 6 } (by decide) (by decide) (by decide)
      (by decide) (by decide)).1 9 (by decide)

/-! ## Claim C4: cleanup and retry -/

theorem buildFFmpegCommand_ne_clear (format type input output : String)
    (m : MemSettings) :
    buildFFmpegCommand format type input output m ≠ ["-nostdin"] := by
  simp [buildFFmpegCommand]

theorem lastOf_buildFFmpegCommand (format type input output : String)
    (m : MemSettings) :
    lastOf (buildFFmpegCommand format type input output m) = output := by
  have : buildFFmpegCommand format type input output m =
      (["-nostdin", "-threads", toString m.threads, "-i", input] ++
        (if strStartsWith type "video/" then
          videoCodecSwitch (toLowerS format) format
        else if strStartsWith type "audio/" then
          audioCodecSwitch (toLowerS format) format
        else []) ++ ["-y"]) ++ [output] := by
    simp [buildFFmpegCommand]
  rw [this, lastOf_concat]

theorem convertFile_happy_av (fs : VFS) (f : ExtendedFile) (fd : FileData)
    (ht : f.toFormat ≠ "") (hd : f.fileData = some fd)
    (hs : fd.size ≤ MAX_FILE_SIZE)
    (hni : strStartsWith f.type "image/" = false) :
    (convertFile happyOracle fs f).1 =
      .ok { url := mkUrl 7,
            output := removeFileExtension f.name ++ "." ++ f.toFormat } ∧
    memberFs (getFileExtension f.name)
      (convertFile happyOracle fs f).2.1 = false ∧
    memberFs (removeFileExtension f.name ++ "." ++ f.toFormat)
      (convertFile happyOracle fs f).2.1 = false := by
  have hsz : ¬ MAX_FILE_SIZE < fd.size := by omega
  simp only [convertFile, convertFileTry, ht, hd, hsz, hni, if_neg,
    ite_false, Bool.false_eq_true, if_false, cleanupResources, writeFileE,
    execE, happyOracle, buildFFmpegCommand_ne_clear,
    lastOf_buildFFmpegCommand, readFileE, lookupFs_insertFs_self]
  simp [memberFs_eraseFs_self,
    memberFs_eraseFs_mono _ _ _ (memberFs_eraseFs_self _ _)]

theorem convertFile_error_cleanup (o : Oracle) (fs : VFS) (f : ExtendedFile)
    (fd : FileData) (e : String) (ht : f.toFormat ≠ "")
    (hd : f.fileData = some fd) (hs : fd.size ≤ MAX_FILE_SIZE)
    (he : (convertFile o fs f).1 = .error e) :
    memberFs (getFileExtension f.name) (convertFile o fs f).2.1 = false ∧
    memberFs (removeFileExtension f.name ++ "." ++ f.toFormat)
      (convertFile o fs f).2.1 = false := by
  have hsz : ¬ MAX_FILE_SIZE < fd.size := by omega
  simp only [convertFile, ht, hd, hsz, if_neg, ite_false] at he ⊢
  rcases hTry : convertFileTry o fs f fd (getFileExtension f.name)
      (removeFileExtension f.name ++ "." ++ f.toFormat)
      (calculateMemorySettings o.jsHeap fd.size) with ⟨r, fs', evs⟩
  rcases r with r | r <;> simp only [hTry] at he ⊢ <;>
    simp_all [cleanupResources, memberFs_eraseFs_self,
      memberFs_eraseFs_mono _ _ _ (memberFs_eraseFs_self _ _)]

/-- Claim C4 counterexample.  A successful engine-based image conversion
(here png to tiff) leaves both the staged input entry and the produced
output entry in the virtual filesystem: the cleanup path does not run on the
success exit of handleImageConversion, contradicting the claim for that
path. -/
theorem convertFile_image_engine_leaves_files_counterexample :
    (convertFile happyOracle [] jobTiff).1 =
      .ok { url := "blob:7", output := "photo.tiff" } ∧
    memberFs "png" (convertFile happyOracle [] jobTiff).2.1 = true ∧
    memberFs "photo.tiff" (convertFile happyOracle [] jobTiff).2.1 = true ∧
    getFileExtension jobTiff.name = "png" := by decide

/-- Claim C4 as amended.  For audio and video jobs the claim holds: under the
well-behaved engine a valid job converts successfully from any starting
filesystem, so a retry (second call on the same job) also succeeds, and
after every call neither the staged input entry nor the output entry remains
in the virtual filesystem; moreover, for every oracle and every valid job of
any category, a failing call always cleans both names up (the catch path).
The claim fails only for the success exit of the engine-based
image-conversion path, which stages input and output and leaves both behind
(see the counterexample). -/
theorem convertFile_cleanup_and_retry :
    (∀ (fs : VFS) (f : ExtendedFile) (fd : FileData),
      f.toFormat ≠ "" → f.fileData = some fd → fd.size ≤ MAX_FILE_SIZE →
      strStartsWith f.type "image/" = false →
      ((convertFile happyOracle fs f).1 =
        .ok { url := mkUrl 7,
              output := removeFileExtension f.name ++ "." ++ f.toFormat } ∧
       memberFs (getFileExtension f.name)
         (convertFile happyOracle fs f).2.1 = false ∧
       memberFs (removeFileExtension f.name ++ "." ++ f.toFormat)
         (convertFile happyOracle fs f).2.1 = false ∧
       (convertFile happyOracle (convertFile happyOracle fs f).2.1 f).1 =
        .ok { url := mkUrl 7,
              output := removeFileExtension f.name ++ "." ++ f.toFormat } ∧
       memberFs (getFileExtension f.name)
         (convertFile happyOracle (convertFile happyOracle fs f).2.1 f).2.1 =
           false ∧
       memberFs (removeFileExtension f.name ++ "." ++ f.toFormat)
         (convertFile happyOracle (convertFile happyOracle fs f).2.1 f).2.1 =
           false)) ∧
    (∀ (o : Oracle) (fs : VFS) (f : ExtendedFile) (fd : FileData)
      (e : String),
      f.toFormat ≠ "" → f.fileData = some fd → fd.size ≤ MAX_FILE_SIZE →
      (convertFile o fs f).1 = .error e →
      memberFs (getFileExtension f.name) (convertFile o fs f).2.1 = false ∧
      memberFs (removeFileExtension f.name ++ "." ++ f.toFormat)
        (convertFile o fs f).2.1 = false) := by
  constructor
  · intro fs f fd ht hd hs hni
    obtain ⟨h1, h2, h3⟩ := convertFile_happy_av fs f fd ht hd hs hni
    obtain ⟨h4, h5, h6⟩ := convertFile_happy_av
      (convertFile happyOracle fs f).2.1 f fd ht hd hs hni
    exact ⟨h1, h2, h3, h4, h5, h6⟩
  · intro o fs f fd e ht hd hs he
    exact convertFile_error_cleanup o fs f fd e ht hd hs he

/-- Closed instantiation of the C4 theorem. -/
theorem convertFile_cleanup_and_retry_witness :
    (convertFile happyOracle [] jobA).1 =
      .ok { url := mkUrl 7, output := "a.mp3" } ∧
    memberFs "wav" (convertFile happyOracle [] jobA).2.1 = false ∧
    (convertFile happyOracle (convertFile happyOracle [] jobA).2.1 jobA).1 =
      .ok { url := mkUrl 7, output := "a.mp3" } := by
  have h := convertFile_cleanup_and_retry.1 [] jobA
    { size := 10, content := 1 } (by decide) (by decide) (by decide)
    (by decide)
  exact ⟨h.1, h.2.1, h.2.2.2.1⟩

/-! ## Claim C9: virtual-filesystem names -/

/-- Claim C9 counterexample.  Two jobs with different source names but the
same mp4 extension are both staged under the input virtual-file name mp4,
because convertFile uses getFileExtension(name) as the input name. -/
theorem input_name_collision_counterexample :
    jobM1.name ≠ jobM2.name ∧
    getFileExtension jobM1.name = getFileExtension jobM2.name ∧
    Ev.write "mp4" ∈ (convertFile happyOracle [] jobM1).2.2 ∧
    Ev.write "mp4" ∈ (convertFile happyOracle [] jobM2).2.2 := by decide

theorem write_mem_convertFileTry (o : Oracle) (fs : VFS) (f : ExtendedFile)
    (fd : FileData) (input output : String) (m : MemSettings)
    (hni : strStartsWith f.type "image/" = false) :
    Ev.write input ∈ (convertFileTry o fs f fd input output m).2.2 := by
  simp only [convertFileTry, hni, Bool.false_eq_true, if_false, ite_false,
    cleanupResources, writeFileE]
  split
  · simp
  · split <;> simp

/-- Claim C9 as amended.  The input virtual-file name chosen by convertFile
on the engine path is just the source extension, so any two jobs whose names
share an extension are staged under the same input name (the claimed
cross-job distinctness fails, see the counterexample); output names, built
as basename dot target, are distinct whenever the basenames differ and the
target is shared. -/
theorem virtual_names_spec :
    (∀ (o : Oracle) (fs : VFS) (f : ExtendedFile) (fd : FileData),
      f.toFormat ≠ "" → f.fileData = some fd → fd.size ≤ MAX_FILE_SIZE →
      strStartsWith f.type "image/" = false →
      Ev.write (getFileExtension f.name) ∈ (convertFile o fs f).2.2) ∧
    (∀ b1 b2 t : String, b1 ≠ b2 → b1 ++ "." ++ t ≠ b2 ++ "." ++ t) := by
  constructor
  · intro o fs f fd ht hd hs hni
    have hsz : ¬ MAX_FILE_SIZE < fd.size := by omega
    simp only [convertFile, ht, hd, hsz, if_neg, if_false, ite_false]
    have hw := write_mem_convertFileTry o fs f fd (getFileExtension f.name)
      (removeFileExtension f.name ++ "." ++ f.toFormat)
      (calculateMemorySettings o.jsHeap fd.size) hni
    split <;> simp_all
  · intro b1 b2 t hne heq
    apply hne
    have hd := congrArg String.data heq
    simp only [String.data_append] at hd
    have h2 := List.append_cancel_right hd
    have h3 := List.append_cancel_right h2
    cases b1; cases b2; simp_all

/-- Closed instantiation of the C9 theorem. -/
theorem virtual_names_spec_witness :
    Ev.write (getFileExtension jobM1.name) ∈
      (convertFile happyOracle [] jobM1).2.2 ∧
    ("holiday" : String) ++ "." ++ "avi" ≠ ("work" : String) ++ "." ++ "avi" :=
  ⟨virtual_names_spec.1 happyOracle [] jobM1 { size := 10, content := 21 }
      (by decide) (by decide) (by decide) (by decide),
   virtual_names_spec.2 "holiday" "work" "avi" (by decide)⟩

/-- Closed instantiation of the C8 theorem. -/
theorem buildFFmpegCommand_recipe_content_witness :
    "libvpx" ∈ buildFFmpegCommand "webm" "video/webm" "mkv" "a.webm"
      { threads := 1, bufsize := "2048K" } ∧
    "-c:a" ∈ buildFFmpegCommand "webm" "video/webm" "mkv" "a.webm"
      { threads := 1, bufsize := "2048K" } :=
  ⟨(buildFFmpegCommand_recipe_content "video/webm" "mkv" "a.webm"
      { threads := 1, bufsize := "2048K" } (by decide)).1.2.1,
   (buildFFmpegCommand_recipe_content "video/webm" "mkv" "a.webm"
      { threads := 1, bufsize := "2048K" } (by decide)).1.2.2⟩

/-! ## Claim C10: chunk-clear failure skips the chunk -/

/-- Claim C10 (confirmed).  If the per-chunk engine-clear command fails, the
chunk-level catch swallows the failure: the chunk contributes no result
entries and no events beyond the attempted clear, so none of its jobs gets a
callback or a flag mutation, and convertFiles (a total function in this
embedding, mirroring that no exception escapes it) returns fewer result
entries than there are jobs; the second half exhibits this concretely with
an engine whose clear always fails on a three-job batch. -/
theorem convertFiles_clear_failure_skips_chunk :
    (∀ (o : Oracle) (fs : VFS) (i : Nat) (c : List ExtendedFile) (e : String),
      o.execEffect ["-nostdin"] fs = .error e →
      processChunk o fs i c = ([], fs, [.exec ["-nostdin"]])) ∧
    ((convertFiles failClearOracle [] demoBatch).1 = [] ∧
     (convertFiles failClearOracle [] demoBatch).2.2 =
       [.exec ["-nostdin"], .exec ["-nostdin"]] ∧
     (convertFiles failClearOracle [] demoBatch).1.length <
       demoBatch.length) := by
  refine ⟨?_, by decide, by decide, by decide⟩
  intro o fs i c e he
  simp [processChunk, execE, he]

/-- Closed instantiation of the C10 theorem. -/
theorem convertFiles_clear_failure_skips_chunk_witness :
    processChunk failClearOracle [] 0 demoBatch =
      ([], [], [.exec ["-nostdin"]]) :=
  convertFiles_clear_failure_skips_chunk.1 failClearOracle [] 0 demoBatch
    "exec failed" (by decide)

/-! ## Trace lemmas for the orchestrator claims -/

theorem execE_trace (o : Oracle) (fs : VFS) (argv : List String) :
    (execE o fs argv).2.2 = [.exec argv] := by
  simp only [execE]
  split <;> rfl

theorem readFileE_trace (fs : VFS) (n : String) :
    (readFileE fs n).2 = [.read n] := rfl

theorem goodEv_write (n : String) : goodEv (.write n) := by
  simp [goodEv, engineEv, isClearEv]

theorem goodEv_read (n : String) : goodEv (.read n) := by
  simp [goodEv, engineEv, isClearEv]

theorem goodEv_delete (n : String) : goodEv (.delete n) := by
  simp [goodEv, engineEv, isClearEv]

theorem goodEv_exec (argv : List String) (h : argv ≠ ["-nostdin"]) :
    goodEv (.exec argv) := by
  simp [goodEv, engineEv, isClearEv, h]

theorem goodEv_execE (o : Oracle) (fs : VFS) (argv : List String)
    (h : argv ≠ ["-nostdin"]) :
    ∀ ev ∈ (execE o fs argv).2.2, goodEv ev := by
  rw [execE_trace]
  intro ev hev
  simp only [List.mem_singleton] at hev
  subst hev
  exact goodEv_exec argv h

theorem goodEv_rawProbe (o : Oracle) (fs : VFS) (input : String) :
    ∀ ev ∈ (rawProbe o fs input).2.2, goodEv ev := by
  unfold rawProbe
  rcases h : execE o fs ["-i", input] with ⟨pr, fsA, eA⟩
  have hA : ∀ ev ∈ eA, goodEv ev := by
    have h2 := goodEv_execE o fs ["-i", input] (by simp)
    rw [h] at h2
    exact h2
  rcases pr with e | u
  · exact hA
  · rcases hr : readFileE fsA "ffmpeg-output.txt" with ⟨rr, eR⟩
    have hR : ∀ ev ∈ eR, goodEv ev := by
      have h3 := readFileE_trace fsA "ffmpeg-output.txt"
      rw [hr] at h3
      intro ev hev
      rw [show eR = [Ev.read "ffmpeg-output.txt"] from h3] at hev
      simp only [List.mem_singleton] at hev
      subst hev
      exact goodEv_read _
    have hAR : ∀ ev ∈ eA ++ eR, goodEv ev := by
      intro ev hev
      rcases List.mem_append.mp hev with hev | hev
      · exact hA ev hev
      · exact hR ev hev
    show ∀ ev ∈ (match readFileE fsA "ffmpeg-output.txt" with
      | (Except.error _, eR) => ((1920, 1080), fsA, eA ++ eR)
      | (Except.ok txt, eR) =>
        match o.probeDims txt with
        | some wh => (wh, fsA, eA ++ eR)
        | none => ((1920, 1080), fsA, eA ++ eR)).2.2, goodEv ev
    rw [hr]
    rcases rr with e2 | txt
    · exact hAR
    · show ∀ ev ∈ (match o.probeDims txt with
        | some wh => (wh, fsA, eA ++ eR)
        | none => ((1920, 1080), fsA, eA ++ eR)).2.2, goodEv ev
      cases o.probeDims txt
      · exact hAR
      · exact hAR

theorem imageFormatArgs_fst (o : Oracle) (fs : VFS) (input f : String)
    (cmd1 : List String) :
    ∃ l, (imageFormatArgs o fs input f cmd1).1 = cmd1 ++ l := by
  unfold imageFormatArgs
  split
  · exact ⟨_, rfl⟩
  · split
    · exact ⟨_, rfl⟩
    · split
      · exact ⟨_, rfl⟩
      · split
        · exact ⟨_, rfl⟩
        · exact ⟨[], by simp⟩

theorem goodEv_imageFormatArgs (o : Oracle) (fs : VFS) (input f : String)
    (cmd1 : List String) :
    ∀ ev ∈ (imageFormatArgs o fs input f cmd1).2.2, goodEv ev := by
  unfold imageFormatArgs
  split
  · simp
  · split
    · simp
    · split
      · simp
      · split
        · exact goodEv_rawProbe o fs input
        · simp

theorem imageCmd_ne_clear (o : Oracle) (fs : VFS) (input f output : String)
    (cmd1 : List String) (h : ∃ t, cmd1 = "-nostdin" :: "-threads" :: t) :
    (imageFormatArgs o fs input f cmd1).1 ++ [output] ≠ ["-nostdin"] := by
  obtain ⟨l, hl⟩ := imageFormatArgs_fst o fs input f cmd1
  obtain ⟨t, ht⟩ := h
  rw [hl, ht]
  simp

theorem goodEv_handleImage (o : Oracle) (fs : VFS) (content : Nat)
    (input output format : String) (m : MemSettings) :
    ∀ ev ∈ (handleImageConversion o fs content input output format m).2.2,
      goodEv ev := by
  have hshape : ∃ t, imageCmd1 m input = "-nostdin" :: "-threads" :: t := by
    unfold imageCmd1
    split <;> exact ⟨_, rfl⟩
  unfold handleImageConversion
  rcases hfa : imageFormatArgs o (writeFileE fs input content).1 input
      (toLowerS format) (imageCmd1 m input) with ⟨cmd2, fs2, e2⟩
  have h2 : ∀ ev ∈ e2, goodEv ev := by
    have h0 := goodEv_imageFormatArgs o (writeFileE fs input content).1 input
      (toLowerS format) (imageCmd1 m input)
    rw [hfa] at h0
    exact h0
  have hne : cmd2 ++ [output] ≠ ["-nostdin"] := by
    have h0 := imageCmd_ne_clear o (writeFileE fs input content).1 input
      (toLowerS format) output (imageCmd1 m input) hshape
    rw [hfa] at h0
    exact h0
  show ∀ ev ∈ ((match execE o fs2 (cmd2 ++ [output]) with
    | (Except.error e, fs3, e3) =>
      (Except.error e, fs3, (writeFileE fs input content).2 ++ e2 ++ e3)
    | (Except.ok _, fs3, e3) =>
      match readFileE fs3 output with
      | (Except.error e, e4) =>
        (Except.error e, fs3,
         (writeFileE fs input content).2 ++ e2 ++ e3 ++ e4)
      | (Except.ok data, e4) =>
        (Except.ok { url := mkUrl data, output := output }, fs3,
         (writeFileE fs input content).2 ++ e2 ++ e3 ++ e4) :
      Except String ConvOk × VFS × List Ev)).2.2, goodEv ev
  rcases hex : execE o fs2 (cmd2 ++ [output]) with ⟨r, fs3, e3⟩
  have h3 : ∀ ev ∈ e3, goodEv ev := by
    have h0 := goodEv_execE o fs2 (cmd2 ++ [output]) hne
    rw [hex] at h0
    exact h0
  have h1 : ∀ ev ∈ (writeFileE fs input content).2, goodEv ev := by
    intro ev hev
    simp only [writeFileE, List.mem_singleton] at hev
    subst hev
    exact goodEv_write _
  rcases r with e | u
  · intro ev hev
    rcases List.mem_append.mp hev with hev | hev
    · rcases List.mem_append.mp hev with hev | hev
      · exact h1 ev hev
      · exact h2 ev hev
    · exact h3 ev hev
  · show ∀ ev ∈ ((match readFileE fs3 output with
      | (Except.error e, e4) =>
        (Except.error e, fs3,
         (writeFileE fs input content).2 ++ e2 ++ e3 ++ e4)
      | (Except.ok data, e4) =>
        (Except.ok { url := mkUrl data, output := output }, fs3,
         (writeFileE fs input content).2 ++ e2 ++ e3 ++ e4) :
      Except String ConvOk × VFS × List Ev)).2.2, goodEv ev
    rcases hrd : readFileE fs3 output with ⟨rr, e4⟩
    have h4 : ∀ ev ∈ e4, goodEv ev := by
      have h5 := readFileE_trace fs3 output
      rw [hrd] at h5
      intro ev hev
      rw [show e4 = [Ev.read output] from h5] at hev
      simp only [List.mem_singleton] at hev
      subst hev
      exact goodEv_read _
    have hall : ∀ ev ∈ (writeFileE fs input content).2 ++ e2 ++ e3 ++ e4,
        goodEv ev := by
      intro ev hev
      rcases List.mem_append.mp hev with hev | hev
      · rcases List.mem_append.mp hev with hev | hev
        · rcases List.mem_append.mp hev with hev | hev
          · exact h1 ev hev
          · exact h2 ev hev
        · exact h3 ev hev
      · exact h4 ev hev
    rcases rr with e5 | data
    · exact hall
    · exact hall

theorem goodEv_cleanup (fs : VFS) (input output : String) :
    ∀ ev ∈ (cleanupResources fs input output).2, goodEv ev := by
  intro ev hev
  simp only [cleanupResources, List.mem_cons, List.mem_singleton] at hev
  rcases hev with rfl | rfl | h
  · exact goodEv_delete _
  · exact goodEv_delete _
  · cases h

theorem goodEv_convertFileTry (o : Oracle) (fs : VFS) (f : ExtendedFile)
    (fd : FileData) (input output : String) (m : MemSettings) :
    ∀ ev ∈ (convertFileTry o fs f fd input output m).2.2, goodEv ev := by
  unfold convertFileTry
  split
  · split
    · split <;> simp
    · exact goodEv_handleImage o fs fd.content input output f.toFormat m
  · have hne := buildFFmpegCommand_ne_clear (toLowerS f.toFormat) f.type
      input output m
    rcases hex : execE o
        (writeFileE (cleanupResources fs input output).1 input fd.content).1
        (buildFFmpegCommand (toLowerS f.toFormat) f.type input output m)
      with ⟨r, fs3, e3⟩
    have h3 : ∀ ev ∈ e3, goodEv ev := by
      have h0 := goodEv_execE o
        (writeFileE (cleanupResources fs input output).1 input fd.content).1
        (buildFFmpegCommand (toLowerS f.toFormat) f.type input output m) hne
      rw [hex] at h0
      exact h0
    have h1 : ∀ ev ∈ (cleanupResources fs input output).2 ++
        (writeFileE (cleanupResources fs input output).1 input fd.content).2,
        goodEv ev := by
      intro ev hev
      rcases List.mem_append.mp hev with hev | hev
      · exact goodEv_cleanup fs input output ev hev
      · simp only [writeFileE, List.mem_singleton] at hev
        subst hev
        exact goodEv_write _
    rcases r with e | u
    · intro ev hev
      rcases List.mem_append.mp hev with hev | hev
      · exact h1 ev hev
      · exact h3 ev hev
    · show ∀ ev ∈ ((match readFileE fs3 output with
        | (Except.error e, e4) =>
          (Except.error e, fs3,
           (cleanupResources fs input output).2 ++
             (writeFileE (cleanupResources fs input output).1 input
               fd.content).2 ++ e3 ++ e4)
        | (Except.ok data, e4) =>
          (Except.ok { url := mkUrl data, output := output },
           (cleanupResources fs3 input output).1,
           (cleanupResources fs input output).2 ++
             (writeFileE (cleanupResources fs input output).1 input
               fd.content).2 ++ e3 ++ e4 ++
             (cleanupResources fs3 input output).2) :
        Except String ConvOk × VFS × List Ev)).2.2, goodEv ev
      rcases hrd : readFileE fs3 output with ⟨rr, e4⟩
      have h4 : ∀ ev ∈ e4, goodEv ev := by
        have h5 := readFileE_trace fs3 output
        rw [hrd] at h5
        intro ev hev
        rw [show e4 = [Ev.read output] from h5] at hev
        simp only [List.mem_singleton] at hev
        subst hev
        exact goodEv_read _
      rcases rr with e5 | data
      · intro ev hev
        rcases List.mem_append.mp hev with hev | hev
        · rcases List.mem_append.mp hev with hev | hev
          · exact h1 ev hev
          · exact h3 ev hev
        · exact h4 ev hev
      · intro ev hev
        rcases List.mem_append.mp hev with hev | hev
        · rcases List.mem_append.mp hev with hev | hev
          · rcases List.mem_append.mp hev with hev | hev
            · exact h1 ev hev
            · exact h3 ev hev
          · exact h4 ev hev
        · exact goodEv_cleanup fs3 input output ev hev

theorem goodEv_convertFile (o : Oracle) (fs : VFS) (f : ExtendedFile) :
    ∀ ev ∈ (convertFile o fs f).2.2, goodEv ev := by
  unfold convertFile
  split
  · simp
  · split
    · simp
    · rename_i fd hfd
      split
      · simp
      · show ∀ ev ∈ ((match convertFileTry o fs f fd (getFileExtension f.name)
            (removeFileExtension f.name ++ "." ++ f.toFormat)
            (calculateMemorySettings o.jsHeap fd.size) with
          | (Except.ok r, fs', evs) => (Except.ok r, fs', evs)
          | (Except.error e, fs', evs) =>
            (Except.error e,
             (cleanupResources fs' (getFileExtension f.name)
               (removeFileExtension f.name ++ "." ++ f.toFormat)).1,
             evs ++ (cleanupResources fs' (getFileExtension f.name)
               (removeFileExtension f.name ++ "." ++ f.toFormat)).2) :
          Except String ConvOk × VFS × List Ev)).2.2, goodEv ev
        rcases htry : convertFileTry o fs f fd (getFileExtension f.name)
            (removeFileExtension f.name ++ "." ++ f.toFormat)
            (calculateMemorySettings o.jsHeap fd.size) with ⟨r, fs', evs⟩
        have he : ∀ ev ∈ evs, goodEv ev := by
          have h0 := goodEv_convertFileTry o fs f fd (getFileExtension f.name)
            (removeFileExtension f.name ++ "." ++ f.toFormat)
            (calculateMemorySettings o.jsHeap fd.size)
          rw [htry] at h0
          exact h0
        rcases r with e | rr
        · intro ev hev
          rcases List.mem_append.mp hev with hev | hev
          · exact he ev hev
          · exact goodEv_cleanup fs' (getFileExtension f.name)
              (removeFileExtension f.name ++ "." ++ f.toFormat) ev hev
        · exact he

theorem clearCount_convertFile (o : Oracle) (fs : VFS) (f : ExtendedFile) :
    clearCount (convertFile o fs f).2.2 = 0 := by
  refine List.countP_eq_zero.mpr ?_
  intro ev hev
  have := (goodEv_convertFile o fs f ev hev).2
  simp [this]

theorem cbEvents_convertFile (o : Oracle) (fs : VFS) (f : ExtendedFile) :
    cbEvents (convertFile o fs f).2.2 = [] := by
  refine List.filterMap_eq_nil_iff.mpr ?_
  intro ev hev
  have := (goodEv_convertFile o fs f ev hev).1
  cases ev <;> simp_all [engineEv]

/-! ## Chunking lemmas -/

theorem chunksOf_flatten : ∀ l : List ExtendedFile, (chunksOf l).flatten = l
  | [] => rfl
  | [a] => rfl
  | a :: b :: rest => by
    simp [chunksOf, chunksOf_flatten rest]

theorem chunksOf_sizes : ∀ l : List ExtendedFile,
    ∀ c ∈ chunksOf l, c ≠ [] ∧ c.length ≤ CHUNK_SIZE
  | [] => by simp [chunksOf]
  | [a] => by simp [chunksOf, CHUNK_SIZE]
  | a :: b :: rest => by
    intro c hc
    simp only [chunksOf, List.mem_cons] at hc
    rcases hc with rfl | hc
    · simp [CHUNK_SIZE]
    · exact chunksOf_sizes rest c hc

theorem chunksOf_dropLast_sizes : ∀ l : List ExtendedFile,
    ∀ c ∈ (chunksOf l).dropLast, c.length = CHUNK_SIZE
  | [] => by simp [chunksOf]
  | [a] => by simp [chunksOf]
  | a :: b :: rest => by
    intro c hc
    cases hr : chunksOf rest with
    | nil =>
      rw [chunksOf, hr] at hc
      simp at hc
    | cons d ds =>
      rw [chunksOf, hr] at hc
      rw [List.dropLast_cons₂] at hc
      rcases List.mem_cons.mp hc with rfl | hc
      · rfl
      · exact chunksOf_dropLast_sizes rest c (by rw [hr]; exact hc)

theorem clearCount_processJob (o : Oracle) (fs : VFS) (i : Nat)
    (f : ExtendedFile) : clearCount (processJob o fs i f).2.2 = 0 := by
  unfold processJob
  rcases hcf : convertFile o fs f with ⟨r, fs', evs⟩
  have h0 : clearCount evs = 0 := by
    have h1 := clearCount_convertFile o fs f
    rw [hcf] at h1
    exact h1
  rcases r with e | rr <;>
    simp [clearCount, List.countP_append, isClearEv] at h0 ⊢ <;>
    exact h0

theorem clearCount_processJobs (o : Oracle) :
    ∀ (c : List ExtendedFile) (fs : VFS) (i : Nat),
      clearCount (processJobs o fs i c).2.2 = 0
  | [], fs, i => rfl
  | f :: rest, fs, i => by
    unfold processJobs
    have h1 := clearCount_processJob o fs i f
    have h2 := clearCount_processJobs o rest (processJob o fs i f).2.1 (i + 1)
    simp only [clearCount, List.countP_append] at h1 h2 ⊢
    omega

theorem runChunks_clear_structure (o : Oracle) :
    ∀ (cs : List (List ExtendedFile)) (fs : VFS) (i : Nat),
      ∃ rests : List (List Ev),
        rests.length = cs.length ∧
        (runChunks o fs i cs).2.2 =
          (rests.map (fun r => Ev.exec ["-nostdin"] :: r)).flatten ∧
        ∀ r ∈ rests, clearCount r = 0
  | [], fs, i => ⟨[], rfl, rfl, by simp⟩
  | c :: cs, fs, i => by
    obtain ⟨rests, hlen, he2, hall⟩ :=
      runChunks_clear_structure o cs (processChunk o fs i c).2.1
        (i + c.length)
    have hchunk : ∃ r0, (processChunk o fs i c).2.2 =
        Ev.exec ["-nostdin"] :: r0 ∧ clearCount r0 = 0 := by
      unfold processChunk
      rcases hex : execE o fs ["-nostdin"] with ⟨rx, fsx, ex⟩
      have hexe : ex = [Ev.exec ["-nostdin"]] := by
        have h0 := execE_trace o fs ["-nostdin"]
        rw [hex] at h0
        exact h0
      rcases rx with e | u
      · exact ⟨[], by rw [hexe], rfl⟩
      · refine ⟨(processJobs o fsx i c).2.2, by rw [hexe]; rfl, ?_⟩
        exact clearCount_processJobs o c fsx i
    obtain ⟨r0, hr0, hc0⟩ := hchunk
    refine ⟨r0 :: rests, by simp [hlen], ?_, ?_⟩
    · show (processChunk o fs i c).2.2 ++
        (runChunks o (processChunk o fs i c).2.1 (i + c.length) cs).2.2 =
        ((r0 :: rests).map (fun r => Ev.exec ["-nostdin"] :: r)).flatten
      rw [hr0, he2]
      simp
    · intro r hr
      rcases List.mem_cons.mp hr with rfl | hr
      · exact hc0
      · exact hall r hr

/-! ## Claim C5: batch ordering, chunking and per-chunk clear -/

/-- Claim C5 (confirmed).  convertFiles sorts the batch ascending by source
byte size (a stable sort, a permutation of the input), partitions the sorted
sequence into chunks of exactly CHUNK_SIZE = 2 jobs (every chunk is nonempty
and at most 2 long, every chunk but the last exactly 2, and the chunks
flatten back to the sorted list), processes the chunks in order, and issues
the engine-clear command exactly once per chunk, at the start of the chunk
and never mid-chunk: the whole trace splits into one clear-headed segment
per chunk with no clear inside any segment.  For a batch of 5 jobs the chunk
sizes are 2, 2, 1 and the clear runs exactly 3 times. -/
theorem convertFiles_sort_chunk_clear (o : Oracle) (fs : VFS)
    (files : List ExtendedFile) :
    (sortFiles files).Perm files ∧
    List.Sorted (fun a b => sizeKey a ≤ sizeKey b) (sortFiles files) ∧
    (chunksOf (sortFiles files)).flatten = sortFiles files ∧
    (∀ c ∈ chunksOf (sortFiles files), c ≠ [] ∧ c.length ≤ CHUNK_SIZE) ∧
    (∀ c ∈ (chunksOf (sortFiles files)).dropLast, c.length = CHUNK_SIZE) ∧
    (∃ rests : List (List Ev),
      rests.length = (chunksOf (sortFiles files)).length ∧
      (convertFiles o fs files).2.2 =
        (rests.map (fun r => Ev.exec ["-nostdin"] :: r)).flatten ∧
      ∀ r ∈ rests, clearCount r = 0) ∧
    ((chunksOf (sortFiles fiveJobs)).map List.length = [2, 2, 1] ∧
     clearCount (convertFiles happyOracle [] fiveJobs).2.2 = 3) := by
  refine ⟨List.perm_insertionSort _ _, ?_, chunksOf_flatten _,
    chunksOf_sizes _, chunksOf_dropLast_sizes _,
    runChunks_clear_structure o (chunksOf (sortFiles files)) fs 0,
    by decide, by decide⟩
  haveI : IsTotal ExtendedFile (fun a b => sizeKey a ≤ sizeKey b) :=
    ⟨fun a b => Nat.le_total _ _⟩
  haveI : IsTrans ExtendedFile (fun a b => sizeKey a ≤ sizeKey b) :=
    ⟨fun _ _ _ hab hbc => Nat.le_trans hab hbc⟩
  exact List.sorted_insertionSort _ _

/-- Closed instantiation of the C5 theorem. -/
theorem convertFiles_sort_chunk_clear_witness :
    (chunksOf (sortFiles fiveJobs)).map List.length = [2, 2, 1] ∧
    clearCount (convertFiles happyOracle [] fiveJobs).2.2 = 3 :=
  (convertFiles_sort_chunk_clear happyOracle [] fiveJobs).2.2.2.2.2.2



/-! ## Claim C1: batch isolation -/

theorem processJob_spec (o : Oracle) (fs : VFS) (i : Nat)
    (f : ExtendedFile) :
    (processJob o fs i f).1.idx = i ∧
    cbEvents (processJob o fs i f).2.2 =
      [(i, (processJob o fs i f).1.result.error.isSome)] ∧
    ((processJob o fs i f).1.result.error.isSome = true →
      ∃ t1, (processJob o fs i f).2.2 =
        t1 ++ [Ev.mutateFlags i, Ev.callback i true]) := by
  unfold processJob
  rcases hcf : convertFile o fs f with ⟨r, fs', evs⟩
  have hevs : cbEvents evs = [] := by
    have h0 := cbEvents_convertFile o fs f
    rw [hcf] at h0
    exact h0
  rcases r with e | rr
  · refine ⟨rfl, ?_, fun _ => ⟨evs, rfl⟩⟩
    simp only [cbEvents, List.filterMap_append] at hevs ⊢
    simp [hevs]
  · refine ⟨rfl, ?_, ?_⟩
    · simp only [cbEvents, List.filterMap_append] at hevs ⊢
      simp [hevs]
    · intro h
      simp at h

theorem processJobs_spec (o : Oracle) :
    ∀ (c : List ExtendedFile) (fs : VFS) (i : Nat),
      (processJobs o fs i c).1.map Entry.idx = List.range' i c.length ∧
      cbEvents (processJobs o fs i c).2.2 =
        (processJobs o fs i c).1.map
          (fun en => (en.idx, en.result.error.isSome)) ∧
      (∀ en ∈ (processJobs o fs i c).1, en.result.error.isSome = true →
        ∃ t1 t2, (processJobs o fs i c).2.2 =
          t1 ++ Ev.mutateFlags en.idx :: Ev.callback en.idx true :: t2)
  | [], fs, i => ⟨rfl, rfl, by simp [processJobs]⟩
  | f :: rest, fs, i => by
    obtain ⟨hmap, hcb, hmut⟩ :=
      processJobs_spec o rest (processJob o fs i f).2.1 (i + 1)
    obtain ⟨hidx, hcb1, hmut1⟩ := processJob_spec o fs i f
    unfold processJobs
    refine ⟨?_, ?_, ?_⟩
    · simp only [List.map_cons, hmap, hidx, List.length_cons]
      rw [List.range'_succ]
    · simp only [cbEvents, List.filterMap_append] at hcb1 hcb ⊢
      simp [hcb1, hcb, hidx]
    · intro en hen herr
      rcases List.mem_cons.mp hen with hhd | hen
      · obtain ⟨t1, ht1⟩ := hmut1 (by rw [hhd] at herr; exact herr)
        refine ⟨t1,
          (processJobs o (processJob o fs i f).2.1 (i + 1) rest).2.2, ?_⟩
        rw [hhd, hidx, ht1]
        simp
      · obtain ⟨t1, t2, ht⟩ := hmut en hen herr
        exact ⟨(processJob o fs i f).2.2 ++ t1, t2, by rw [ht]; simp⟩

theorem processChunk_spec (o : Oracle)
    (hclear : ∀ fs', ∃ fs'', o.execEffect ["-nostdin"] fs' = .ok fs'')
    (fs : VFS) (i : Nat) (c : List ExtendedFile) :
    (processChunk o fs i c).1.map Entry.idx = List.range' i c.length ∧
    cbEvents (processChunk o fs i c).2.2 =
      (processChunk o fs i c).1.map
        (fun en => (en.idx, en.result.error.isSome)) ∧
    (∀ en ∈ (processChunk o fs i c).1, en.result.error.isSome = true →
      ∃ t1 t2, (processChunk o fs i c).2.2 =
        t1 ++ Ev.mutateFlags en.idx :: Ev.callback en.idx true :: t2) := by
  obtain ⟨fs', hok⟩ := hclear fs
  obtain ⟨hmap, hcb, hmut⟩ := processJobs_spec o c fs' i
  unfold processChunk
  simp only [execE, hok]
  refine ⟨hmap, ?_, ?_⟩
  · simp only [cbEvents, List.filterMap_append] at hcb ⊢
    simp [hcb]
  · intro en hen herr
    obtain ⟨t1, t2, ht⟩ := hmut en hen herr
    exact ⟨Ev.exec ["-nostdin"] :: t1, t2, by rw [ht]; rfl⟩

theorem runChunks_spec (o : Oracle)
    (hclear : ∀ fs', ∃ fs'', o.execEffect ["-nostdin"] fs' = .ok fs'') :
    ∀ (cs : List (List ExtendedFile)) (fs : VFS) (i : Nat),
      (runChunks o fs i cs).1.map Entry.idx =
        List.range' i (cs.map List.length).sum ∧
      cbEvents (runChunks o fs i cs).2.2 =
        (runChunks o fs i cs).1.map
          (fun en => (en.idx, en.result.error.isSome)) ∧
      (∀ en ∈ (runChunks o fs i cs).1, en.result.error.isSome = true →
        ∃ t1 t2, (runChunks o fs i cs).2.2 =
          t1 ++ Ev.mutateFlags en.idx :: Ev.callback en.idx true :: t2)
  | [], fs, i => ⟨rfl, rfl, by simp [runChunks]⟩
  | c :: cs, fs, i => by
    obtain ⟨h1, h2, h3⟩ := processChunk_spec o hclear fs i c
    obtain ⟨h4, h5, h6⟩ :=
      runChunks_spec o hclear cs (processChunk o fs i c).2.1 (i + c.length)
    unfold runChunks
    refine ⟨?_, ?_, ?_⟩
    · simp only [List.map_append, h1, h4, List.map_cons, List.sum_cons]
      rw [List.range'_append_1]
      rw [Nat.add_comm ((cs.map List.length).sum) c.length]
    · simp only [cbEvents, List.filterMap_append, List.map_append] at h2 h5 ⊢
      simp [h2, h5]
    · intro en hen herr
      rcases List.mem_append.mp hen with hen | hen
      · obtain ⟨t1, t2, ht⟩ := h3 en hen herr
        refine ⟨t1, t2 ++
          (runChunks o (processChunk o fs i c).2.1 (i + c.length) cs).2.2, ?_⟩
        rw [ht]
        simp
      · obtain ⟨t1, t2, ht⟩ := h6 en hen herr
        exact ⟨(processChunk o fs i c).2.2 ++ t1, t2, by rw [ht]; simp⟩

/-- Claim C1 (confirmed).  Batch isolation of convertFiles, under an engine
whose chunk-clear command always succeeds (a failing clear makes the chunk
skip all its jobs, see the C10 theorem; such jobs are not processed): every
job of the batch is processed and yields exactly one result entry, in
size-ascending order (entry positions are exactly 0, 1, ... on the sorted
batch, so a failure never aborts the chunk or the batch); the progress
callback fires exactly once per processed job, in that same order, with the
error flag of the entry; for every errored job the status-flag mutation is
applied immediately before that job's callback (the trace contains the
adjacent pair mutateFlags then callback); and convertFiles is a total
function of its inputs, so no exception of a job escapes it.  The concrete
part instantiates the three-job scenario: the middle-sized job has an empty
target, the other two succeed, the callback fires exactly 3 times in order,
and exactly one entry is errored. -/
theorem convertFiles_batch_isolation (o : Oracle) (fs : VFS)
    (files : List ExtendedFile)
    (hclear : ∀ fs', ∃ fs'', o.execEffect ["-nostdin"] fs' = .ok fs'') :
    ((convertFiles o fs files).1.map Entry.idx =
      List.range files.length) ∧
    (cbEvents (convertFiles o fs files).2.2 =
      (convertFiles o fs files).1.map
        (fun en => (en.idx, en.result.error.isSome))) ∧
    (∀ en ∈ (convertFiles o fs files).1, en.result.error.isSome = true →
      ∃ t1 t2, (convertFiles o fs files).2.2 =
        t1 ++ Ev.mutateFlags en.idx :: Ev.callback en.idx true :: t2) ∧
    ((convertFiles happyOracle [] demoBatch).1.map
        (fun en => (en.idx, en.result.error.isSome)) =
      [(0, false), (1, true), (2, false)] ∧
     cbEvents (convertFiles happyOracle [] demoBatch).2.2 =
      [(0, false), (1, true), (2, false)] ∧
     ((convertFiles happyOracle [] demoBatch).1.filter
        (fun en => en.result.error.isSome)).length = 1 ∧
     (convertFiles happyOracle [] demoBatch).1.map
        (fun en => en.result.error) =
      [none, some "Output format 'to' is undefined", none]) := by
  obtain ⟨h1, h2, h3⟩ :=
    runChunks_spec o hclear (chunksOf (sortFiles files)) fs 0
  have hsum : ((chunksOf (sortFiles files)).map List.length).sum =
      files.length := by
    have hfl := chunksOf_flatten (sortFiles files)
    have hlen : (chunksOf (sortFiles files)).flatten.length =
        (sortFiles files).length := by rw [hfl]
    rw [List.length_flatten] at hlen
    rw [hlen]
    exact (List.perm_insertionSort _ files).length_eq
  refine ⟨?_, h2, h3, by decide, by decide, by decide, by decide⟩
  show (runChunks o fs 0 (chunksOf (sortFiles files))).1.map Entry.idx =
    List.range files.length
  rw [h1, hsum, List.range_eq_range']

/-- Closed instantiation of the C1 theorem. -/
theorem convertFiles_batch_isolation_witness :
    (convertFiles happyOracle [] demoBatch).1.map Entry.idx =
      List.range demoBatch.length ∧
    cbEvents (convertFiles happyOracle [] demoBatch).2.2 =
      [(0, false), (1, true), (2, false)] :=
  ⟨(convertFiles_batch_isolation happyOracle [] demoBatch
      (fun fs' => ⟨fs', rfl⟩)).1,
   (convertFiles_batch_isolation happyOracle [] demoBatch
      (fun fs' => ⟨fs', rfl⟩)).2.2.2.2.1⟩

end Converter
